import Mathlib

/-!
Verification of the Video-Text-Extractor repository.

The repository has two source files: `App.tsx` (the React UI shell) and
`services/videoAnalyzer.ts` (frame sampler and AI client adapter), plus a
small `types.ts`.  This development shallowly embeds the functions the
claims are about:

* strings are Lean `String`s (or `List Char` where index arithmetic is
  needed); JavaScript numbers that hold real values (durations, playback
  positions) are `ℚ`, integer values are `ℤ`/`ℕ`;
* fallible code returns `Except String α`;
* calls to the external Gemini service, the canvas, `fetch`, and the file
  reader are external I/O: each handler is parameterised by the outcome of
  the external call(s) it awaits, and the AI calls a handler dispatches are
  returned explicitly as a `List AiCall`;
* React state updates inside one handler are modelled as a single atomic
  state transformation (the code awaits every asynchronous step, and the
  busy-flag discipline means no other handler interleaves by design).
-/

/-! ### `types.ts` -/

/-- `AppStatus` from `types.ts`: `'idle' | 'processing' | 'success' | 'error'`. -/
inductive AppStatus where
  | idle | processing | success | error
deriving DecidableEq

/-- `Transcription` from `types.ts`: a formatted `"mm:ss"` timestamp and a text. -/
structure Transcription where
  timestamp : String
  text : String
deriving DecidableEq

/-- `VideoFrame` from `types.ts`: an (integer) timestamp in seconds and the
base64 JPEG payload drawn from the canvas. -/
structure VideoFrame where
  timestamp : ℤ
  imageData : String
deriving DecidableEq

/-! ### JavaScript primitives used by the formatting code -/

/-- JavaScript `String(n).padStart(2, '0')`: prepend `'0'`s until the length
is at least 2. -/
def padStart2 (s : String) : String :=
  if 2 ≤ s.length then s else String.mk (List.replicate (2 - s.length) '0') ++ s

/-- JavaScript truncation toward zero (the rounding used by the `%` operator
on numbers). -/
def jsTrunc (q : ℚ) : ℤ := if 0 ≤ q then ⌊q⌋ else ⌈q⌉

/-- JavaScript `x % y` on numbers: `x - y * trunc(x / y)`. -/
def jsFmod (x y : ℚ) : ℚ := x - y * (jsTrunc (x / y) : ℚ)

/-! ### `App.tsx`: `formatDuration` (lines 210-215)

```
const formatDuration = (totalSeconds: number | null): string => {
    if (totalSeconds === null || isNaN(totalSeconds)) return '00:00';
    const minutes = Math.floor(totalSeconds / 60);
    const seconds = Math.floor(totalSeconds % 60);
    return `...padded minutes...:...padded seconds...`;
};
```
`null` is modelled by `Option.none`; `NaN` has no rational counterpart and is
absorbed into the `none` case. -/

/-- `formatDuration` from `App.tsx`. -/
def formatDuration : Option ℚ → String
  | none => "00:00"
  | some totalSeconds =>
      padStart2 (toString ⌊totalSeconds / 60⌋) ++ ":" ++
        padStart2 (toString ⌊jsFmod totalSeconds 60⌋)

/-! ### `videoAnalyzer.ts`: `formatTimestamp` (lines 1181-1186)

```
const formatTimestamp = (totalSeconds: number): string => {
    const flooredSeconds = Math.floor(totalSeconds);
    const minutes = Math.floor(flooredSeconds / 60);
    const seconds = flooredSeconds % 60;
    return `...padded minutes...:...padded seconds...`;
};
```
`Math.floor(flooredSeconds / 60)` on integer `flooredSeconds` is floor
division (`Int.fdiv`); the JavaScript `%` on integers is the
truncated remainder (`Int.tmod`). -/

/-- `formatTimestamp` from `videoAnalyzer.ts`. -/
def formatTimestamp (totalSeconds : ℚ) : String :=
  let flooredSeconds : ℤ := ⌊totalSeconds⌋
  padStart2 (toString (Int.fdiv flooredSeconds 60)) ++ ":" ++
    padStart2 (toString (Int.tmod flooredSeconds 60))

/-! ### `App.tsx`: `formattedText` (lines 243-258) -/

/-- JavaScript `Array.prototype.join('\n')`. -/
def joinLines : List String → String
  | [] => ""
  | [x] => x
  | x :: xs => x ++ "\n" ++ joinLines xs

/-- One transcription line: `` `${item.timestamp} ${item.text}` ``. -/
def transcriptionLine (item : Transcription) : String :=
  item.timestamp ++ " " ++ item.text

/-- `formattedText` from `App.tsx` (the `useMemo` body): empty unless the
status is `success`; otherwise the joined transcription lines followed by the
`clip length` line, or only the latter when the joined lines are the empty
string (JavaScript string truthiness). -/
def formattedText (status : AppStatus) (transcriptions : List Transcription)
    (videoDuration : Option ℚ) : String :=
  if status ≠ AppStatus.success then "" else
    let transcriptionLines := joinLines (transcriptions.map transcriptionLine)
    let durationLine := "clip length " ++ formatDuration videoDuration
    if transcriptionLines ≠ "" then transcriptionLines ++ "\n" ++ durationLine
    else durationLine

/-- The Result Formatter as the specification words it: one
`"timestamp text"` line per entry joined by newlines, followed by a final
`"clip length mm:ss"` line; for an empty entry list, exactly the clip-length
line.  (Spec-side definition, to be compared with `formattedText`.) -/
def formattedTextSpec (transcriptions : List Transcription)
    (videoDuration : Option ℚ) : String :=
  match transcriptions with
  | [] => "clip length " ++ formatDuration videoDuration
  | _ => joinLines (transcriptions.map transcriptionLine) ++ "\n" ++
      ("clip length " ++ formatDuration videoDuration)

/-! ### Parsing `"mm:ss"` back (spec-side, for the round-trip claim) -/

/-- Value of a two-digit string fragment. -/
def twoDigitVal (a b : Char) : Option ℕ :=
  if a.isDigit ∧ b.isDigit then
    some (10 * (a.toNat - 48) + (b.toNat - 48))
  else none

/-- Parse a `"mm:ss"` string (two zero-padded fields) back to seconds, as the
specification words it: `60*mm + ss`. -/
def parseMmSs (str : String) : Option ℕ :=
  match str.toList with
  | [a, b, c, d, e] =>
      if c = ':' then
        match twoDigitVal a b, twoDigitVal d e with
        | some m, some s => some (60 * m + s)
        | _, _ => none
      else none
  | _ => none

section FormatLemmas

/-- Evaluation of `formatTimestamp` at a natural-number input. -/
theorem formatTimestamp_natCast (n : ℕ) :
    formatTimestamp (n : ℚ) =
      padStart2 (toString ((n / 60 : ℕ) : ℤ)) ++ ":" ++
        padStart2 (toString ((n % 60 : ℕ) : ℤ)) := by
  have h1 : ⌊(n : ℚ)⌋ = (n : ℤ) := Int.floor_natCast n
  have h2 : Int.fdiv (n : ℤ) 60 = ((n / 60 : ℕ) : ℤ) := by
    rw [Int.fdiv_eq_ediv _ (by norm_num)]
    omega
  have h3 : Int.tmod (n : ℤ) 60 = ((n % 60 : ℕ) : ℤ) := by
    rw [Int.tmod_eq_emod (by positivity) (by norm_num)]
    omega
  simp only [formatTimestamp, h1, h2, h3]

/-- The whole-part subtraction that `jsFmod` performs, at a natural input. -/
theorem jsFmod_natCast_sixty (n : ℕ) :
    jsFmod (n : ℚ) 60 = ((n % 60 : ℕ) : ℚ) := by
  have h1 : ⌊(n : ℚ) / 60⌋ = ((n / 60 : ℕ) : ℤ) := by
    have := Rat.floor_natCast_div_natCast n 60
    simpa using this
  have htr : jsTrunc ((n : ℚ) / 60) = ((n / 60 : ℕ) : ℤ) := by
    unfold jsTrunc
    rw [if_pos (by positivity)]
    exact h1
  unfold jsFmod
  rw [htr, Int.cast_natCast]
  have h := Nat.div_add_mod n 60
  have hq : (60 : ℚ) * ((n / 60 : ℕ) : ℚ) + ((n % 60 : ℕ) : ℚ) = (n : ℚ) := by
    exact_mod_cast h
  linarith

/-- Evaluation of `formatDuration` at a natural-number input. -/
theorem formatDuration_natCast (n : ℕ) :
    formatDuration (some (n : ℚ)) =
      padStart2 (toString ((n / 60 : ℕ) : ℤ)) ++ ":" ++
        padStart2 (toString ((n % 60 : ℕ) : ℤ)) := by
  have h1 : ⌊(n : ℚ) / 60⌋ = ((n / 60 : ℕ) : ℤ) := by
    have := Rat.floor_natCast_div_natCast n 60
    simpa using this
  have h2 : ⌊jsFmod (n : ℚ) 60⌋ = ((n % 60 : ℕ) : ℤ) := by
    rw [jsFmod_natCast_sixty, Int.floor_natCast]
  simp only [formatDuration, h1, h2]

end FormatLemmas

section DigitLemmas

set_option maxRecDepth 4000

/-- For two-digit values, `padStart2` of the decimal rendering yields exactly
the two decimal digit characters. -/
theorem padStart2_toList : ∀ m : ℕ, m < 100 →
    (padStart2 (toString (m : ℤ))).toList =
      [Nat.digitChar (m / 10), Nat.digitChar (m % 10)] := by decide

/-- `twoDigitVal` inverts the two decimal digit characters of a value below
one hundred. -/
theorem twoDigitVal_digitChar : ∀ m : ℕ, m < 100 →
    twoDigitVal (Nat.digitChar (m / 10)) (Nat.digitChar (m % 10)) = some m := by decide

end DigitLemmas

/-- `parseMmSs` inverts a string assembled from two zero-padded two-digit
fields around a colon. -/
theorem parseMmSs_pad_pair (m r : ℕ) (hm : m < 100) (hr : r < 100) :
    parseMmSs (padStart2 (toString (m : ℤ)) ++ ":" ++ padStart2 (toString (r : ℤ)))
      = some (60 * m + r) := by
  have hm' := padStart2_toList m hm
  have hr' := padStart2_toList r hr
  have hlist : (padStart2 (toString (m : ℤ)) ++ ":" ++ padStart2 (toString (r : ℤ))).toList
      = [Nat.digitChar (m / 10), Nat.digitChar (m % 10), ':',
         Nat.digitChar (r / 10), Nat.digitChar (r % 10)] := by
    show (padStart2 (toString (m : ℤ)) ++ ":" ++ padStart2 (toString (r : ℤ))).data = _
    rw [String.data_append, String.data_append]
    have hm'' : (padStart2 (toString (m : ℤ))).data
        = [Nat.digitChar (m / 10), Nat.digitChar (m % 10)] := hm'
    have hr'' : (padStart2 (toString (r : ℤ))).data
        = [Nat.digitChar (r / 10), Nat.digitChar (r % 10)] := hr'
    rw [hm'', hr'']
    rfl
  simp only [parseMmSs, hlist]
  rw [twoDigitVal_digitChar m hm, twoDigitVal_digitChar r hr]
  simp

section JoinLemmas

/-- `joinLines` of a non-empty list is at least as long as its first element. -/
theorem joinLines_cons_length (x : String) (xs : List String) :
    x.length ≤ (joinLines (x :: xs)).length := by
  cases xs with
  | nil => simp [joinLines]
  | cons y ys =>
      show x.length ≤ (x ++ "\n" ++ joinLines (y :: ys)).length
      rw [String.length_append, String.length_append]
      omega

/-- A transcription line is never the empty string (it contains the
separating space). -/
theorem transcriptionLine_length (t : Transcription) : 1 ≤ (transcriptionLine t).length := by
  show 1 ≤ (t.timestamp ++ " " ++ t.text).length
  rw [String.length_append, String.length_append]
  have h : (" " : String).length = 1 := rfl
  omega

/-- The joined transcription lines of a non-empty transcription list are a
non-empty string (JavaScript truthiness of `transcriptionLines`). -/
theorem joinLines_transcriptions_ne_empty (t : Transcription) (ts : List Transcription) :
    joinLines ((t :: ts).map transcriptionLine) ≠ "" := by
  intro h
  have h1 := joinLines_cons_length (transcriptionLine t) (ts.map transcriptionLine)
  have h2 := transcriptionLine_length t
  rw [List.map_cons] at h
  rw [h] at h1
  have h0 : ("" : String).length = 0 := rfl
  omega

end JoinLemmas

/-! ### `videoAnalyzer.ts`: `extractFramesFromVideo` (lines 1123-1179)

The sampling loop:

```
const duration = video.duration;
let currentTime = 0;
const captureFrame = () => {
  if (currentTime > duration) { resolve(frames); return; }
  video.currentTime = currentTime;
};
video.onseeked = () => {
  ...draw...
  frames.push({ timestamp: Math.round(video.currentTime), imageData });
  currentTime += FRAME_EXTRACTION_INTERVAL;   // 2 seconds
  captureFrame();
};
captureFrame();
```

The cursor `currentTime` starts at `0` and advances in exact steps of `2`,
so it always holds an even integer and `Math.round(video.currentTime)` (with
the seek modelled as settling exactly at the requested position) is that
integer; the cursor is therefore carried as a `ℤ` compared against the
rational duration.  The canvas JPEG encoding at a given position is external
I/O and is passed in as `encode`.  The recursion is fuelled; the fuel
`⌈duration⌉.toNat + 2` dominates the number of loop entries
(`⌊duration/2⌋ + 1` captures plus the final terminating test), so the loop
always stops because the cursor passed the duration, never because fuel ran
out (`extractFramesFromVideo_complete` below exercises this). -/

/-- One entry of the sampling loop of `extractFramesFromVideo`:
stop when the cursor has passed the duration, otherwise capture a frame at
the cursor and advance by the 2-second interval. -/
def sampleLoop (duration : ℚ) (encode : ℤ → String) : ℕ → ℤ → List VideoFrame
  | 0, _ => []
  | fuel + 1, currentTime =>
      if (currentTime : ℚ) > duration then []
      else { timestamp := currentTime, imageData := encode currentTime } ::
        sampleLoop duration encode fuel (currentTime + 2)

/-- `extractFramesFromVideo` from `videoAnalyzer.ts`, as a function of the
video's duration (read from the metadata) and of the canvas encoding. -/
def extractFramesFromVideo (duration : ℚ) (encode : ℤ → String) : List VideoFrame :=
  sampleLoop duration encode (⌈duration⌉.toNat + 2) 0

/-! ### `videoAnalyzer.ts`: the AI client adapter (lines 1188-1334) -/

/-- The raw transcription entries the model is asked for:
`{ timestamp: integer, text: string }` (the declared response schema). -/
structure RawTranscription where
  timestamp : ℤ
  text : String
deriving DecidableEq

/-- The three requests the adapter can send to the external model. -/
inductive AiCall where
  | analyze
  | processFrame
  | editImage
deriving DecidableEq

/-- `analyzeVideoForText` from `videoAnalyzer.ts` (lines 1188-1253), as a
function of the extracted frames and of the outcome of the batch
`generateContent` call (the external model, with its JSON response already
parsed against the declared schema).  Returns the result together with the
list of AI calls actually dispatched. -/
def analyzeVideoForText (frames : List VideoFrame)
    (aiResult : Except String (List RawTranscription)) :
    Except String (List Transcription) × List AiCall :=
  if frames.length = 0 then
    (Except.error "Could not extract any frames from the video.", [])
  else
    match aiResult with
    | Except.error e => (Except.error e, [AiCall.analyze])
    | Except.ok rawResults =>
        (Except.ok (rawResults.map fun result =>
          { timestamp := formatTimestamp (result.timestamp : ℚ), text := result.text }),
         [AiCall.analyze])

/-- An inline blob inside a model response part:
`{ mimeType: string, data: string }`. -/
structure InlineData where
  mimeType : String
  data : String
deriving DecidableEq

/-- A part of a model response; text parts carry no `inlineData`. -/
structure GenPart where
  inlineData : Option InlineData
deriving DecidableEq

/-- The `content` object of a response candidate; `parts` may be absent. -/
structure GenContent where
  parts : Option (List GenPart)
deriving DecidableEq

/-- A response candidate; `content` may be absent (e.g. safety block). -/
structure GenCandidate where
  content : Option GenContent
deriving DecidableEq

/-- A `generateContent` response; `candidates` may be absent. -/
structure GenResponse where
  candidates : Option (List GenCandidate)
deriving DecidableEq

/-- The scanning loop shared verbatim by `processFrameForTextExtraction`
(lines 1286-1290) and `editImage` (lines 1326-1330):
`if (part.inlineData && part.inlineData.mimeType.startsWith('image/')) return part.inlineData.data;`. -/
def firstInlineImage : List GenPart → Option String
  | [] => none
  | part :: rest =>
      match part.inlineData with
      | some d => if d.mimeType.startsWith "image/" then some d.data
          else firstInlineImage rest
      | none => firstInlineImage rest

/-- `processFrameForTextExtraction` from `videoAnalyzer.ts` (lines
1255-1294), as a function of the model response: the guarded scan
`if (response.candidates && response.candidates.length > 0 &&
response.candidates[0].content && response.candidates[0].content.parts)`
followed by the part loop, else the explicit no-image error. -/
def processFrameForTextExtraction (response : GenResponse) : Except String String :=
  match response.candidates with
  | some (c :: _) =>
      match c.content with
      | some content =>
          match content.parts with
          | some parts =>
              match firstInlineImage parts with
              | some data => Except.ok data
              | none => Except.error "Could not find generated image in the API response. The request may have been blocked due to safety policies."
          | none => Except.error "Could not find generated image in the API response. The request may have been blocked due to safety policies."
      | none => Except.error "Could not find generated image in the API response. The request may have been blocked due to safety policies."
  | _ => Except.error "Could not find generated image in the API response. The request may have been blocked due to safety policies."

/-- `editImage` from `videoAnalyzer.ts` (lines 1296-1334): identical response
handling, differing only in the error message. -/
def editImage (response : GenResponse) : Except String String :=
  match response.candidates with
  | some (c :: _) =>
      match c.content with
      | some content =>
          match content.parts with
          | some parts =>
              match firstInlineImage parts with
              | some data => Except.ok data
              | none => Except.error "Could not find edited image in the API response. The request may have been blocked due to safety policies."
          | none => Except.error "Could not find edited image in the API response. The request may have been blocked due to safety policies."
      | none => Except.error "Could not find edited image in the API response. The request may have been blocked due to safety policies."
  | _ => Except.error "Could not find edited image in the API response. The request may have been blocked due to safety policies."

/-- Whether a response part carries inline image data (inline data with an
`image/` media type), following the glossary's "inline image part". -/
def isInlineImagePart (p : GenPart) : Bool :=
  match p.inlineData with
  | some d => d.mimeType.startsWith "image/"
  | none => false

/-- The data payload of a part (empty when the part has no inline data). -/
def partData (p : GenPart) : String :=
  match p.inlineData with
  | some d => d.data
  | none => ""

/-- The parts the adapter scans: those of the first candidate's content,
empty when candidates, content or parts are absent. -/
def responseParts (r : GenResponse) : List GenPart :=
  match r.candidates with
  | some (c :: _) =>
      match c.content with
      | some content => content.parts.getD []
      | none => []
  | _ => []

section SamplerLemmas

/-- Once the cursor has passed the duration the loop emits nothing. -/
theorem sampleLoop_eq_nil (d : ℚ) (enc : ℤ → String) (fuel : ℕ) (cur : ℤ)
    (h : (cur : ℚ) > d) : sampleLoop d enc fuel cur = [] := by
  cases fuel with
  | zero => rfl
  | succ n => simp [sampleLoop, h]

/-- Every timestamp the loop emits lies between the starting cursor and the
duration, at an even offset from the starting cursor. -/
theorem sampleLoop_timestamps_mem (d : ℚ) (enc : ℤ → String) :
    ∀ (fuel : ℕ) (cur : ℤ),
      ∀ t ∈ (sampleLoop d enc fuel cur).map VideoFrame.timestamp,
        cur ≤ t ∧ (t : ℚ) ≤ d ∧ ∃ k : ℕ, t = cur + 2 * k := by
  intro fuel
  induction fuel with
  | zero => intro cur t ht; simp [sampleLoop] at ht
  | succ n ih =>
      intro cur t ht
      by_cases h : (cur : ℚ) > d
      · simp [sampleLoop, h] at ht
      · simp only [sampleLoop, if_neg h, List.map_cons, List.mem_cons] at ht
        rcases ht with rfl | ht
        · exact ⟨le_refl _, le_of_not_lt h, 0, by ring⟩
        · obtain ⟨h1, h2, k, hk⟩ := ih (cur + 2) t ht
          exact ⟨by omega, h2, k + 1, by push_cast at hk ⊢; omega⟩

/-- The timestamps the loop emits are strictly increasing. -/
theorem sampleLoop_chain (d : ℚ) (enc : ℤ → String) :
    ∀ (fuel : ℕ) (cur : ℤ),
      List.Chain' (· < ·) ((sampleLoop d enc fuel cur).map VideoFrame.timestamp) := by
  intro fuel
  induction fuel with
  | zero => intro cur; simp [sampleLoop]
  | succ n ih =>
      intro cur
      by_cases h : (cur : ℚ) > d
      · simp [sampleLoop, h]
      · simp only [sampleLoop, if_neg h, List.map_cons]
        refine List.chain'_cons'.mpr ⟨?_, ih (cur + 2)⟩
        intro y hy
        have hmem := List.mem_of_mem_head? hy
        have hb := sampleLoop_timestamps_mem d enc n (cur + 2) y hmem
        omega

/-- Length bound for the loop: at most `⌊(d - cur)/2⌋ + 1` frames are
produced when the cursor has not yet passed the duration. -/
theorem sampleLoop_length_le (d : ℚ) (enc : ℤ → String) :
    ∀ (fuel : ℕ) (cur : ℤ), (cur : ℚ) ≤ d →
      ((sampleLoop d enc fuel cur).length : ℤ) ≤ ⌊(d - cur) / 2⌋ + 1 := by
  intro fuel
  induction fuel with
  | zero =>
      intro cur hcur
      have : (0 : ℤ) ≤ ⌊(d - cur) / 2⌋ := by
        apply Int.floor_nonneg.mpr
        have : (0 : ℚ) ≤ d - cur := by linarith
        positivity
      simp [sampleLoop]
      omega
  | succ n ih =>
      intro cur hcur
      have hnot : ¬ ((cur : ℚ) > d) := not_lt.mpr hcur
      simp only [sampleLoop, if_neg hnot, List.length_cons]
      by_cases h2 : ((cur + 2 : ℤ) : ℚ) > d
      · rw [sampleLoop_eq_nil d enc n (cur + 2) h2]
        have : (0 : ℤ) ≤ ⌊(d - cur) / 2⌋ := by
          apply Int.floor_nonneg.mpr
          have : (0 : ℚ) ≤ d - cur := by linarith
          positivity
        simp
        omega
      · have hle : ((cur + 2 : ℤ) : ℚ) ≤ d := not_lt.mp h2
        have htail := ih (cur + 2) hle
        have hfloor : ⌊(d - (cur + 2 : ℤ)) / 2⌋ = ⌊(d - cur) / 2⌋ - 1 := by
          have : (d - ((cur + 2 : ℤ) : ℚ)) / 2 = (d - cur) / 2 - 1 := by
            push_cast
            ring
          rw [this]
          exact_mod_cast Int.floor_sub_int ((d - cur) / 2) 1
        push_cast
        omega

/-- Completeness of the loop: with enough fuel, every even cursor offset not
exceeding the duration is captured. -/
theorem sampleLoop_complete (d : ℚ) (enc : ℤ → String) :
    ∀ (fuel : ℕ) (cur : ℤ) (k : ℕ), k < fuel → ((cur + 2 * k : ℤ) : ℚ) ≤ d →
      (cur + 2 * k : ℤ) ∈ (sampleLoop d enc fuel cur).map VideoFrame.timestamp := by
  intro fuel
  induction fuel with
  | zero => intro cur k hk; omega
  | succ n ih =>
      intro cur k hk hle
      have hcast : (cur : ℚ) ≤ ((cur + 2 * k : ℤ) : ℚ) := by
        push_cast
        have : (0 : ℚ) ≤ (k : ℚ) := Nat.cast_nonneg k
        linarith
      have hcur : ¬ ((cur : ℚ) > d) := not_lt.mpr (le_trans hcast hle)
      simp only [sampleLoop, if_neg hcur, List.map_cons, List.mem_cons]
      cases k with
      | zero => left; omega
      | succ k' =>
          right
          have harg : cur + 2 * (k' + 1 : ℕ) = (cur + 2) + 2 * (k' : ℕ) := by
            push_cast
            ring
          rw [harg]
          apply ih (cur + 2) k' (by omega)
          rw [← harg]
          exact hle

end SamplerLemmas

/-- C1: for a video of duration `D` sampled at the fixed 2-second interval,
`extractFramesFromVideo` produces at most `⌈D/2⌉ + 1` frames, one per
sampling-cursor value `0, 2, 4, ...` while the cursor is `≤ D` (every such
cursor value is captured, and every captured timestamp is such a value);
the timestamps are strictly increasing, and no frame is captured at a cursor
position exceeding `D`. -/
theorem extractFramesFromVideo_spec (duration : ℚ) (encode : ℤ → String)
    (h : 0 ≤ duration) :
    (((extractFramesFromVideo duration encode).length : ℤ) ≤ ⌈duration / 2⌉ + 1) ∧
    List.Chain' (· < ·)
      ((extractFramesFromVideo duration encode).map VideoFrame.timestamp) ∧
    (∀ t ∈ (extractFramesFromVideo duration encode).map VideoFrame.timestamp,
      0 ≤ t ∧ 2 ∣ t ∧ (t : ℚ) ≤ duration) ∧
    (∀ k : ℕ, ((2 * k : ℤ) : ℚ) ≤ duration →
      (2 * k : ℤ) ∈ (extractFramesFromVideo duration encode).map VideoFrame.timestamp) := by
  refine ⟨?_, ?_, ?_, ?_⟩
  · have hlen := sampleLoop_length_le duration encode (⌈duration⌉.toNat + 2) 0
      (by exact_mod_cast h)
    have hfc : ⌊(duration - (0 : ℤ)) / 2⌋ ≤ ⌈duration / 2⌉ := by
      have : (duration - ((0 : ℤ) : ℚ)) / 2 = duration / 2 := by push_cast; ring
      rw [this]
      exact Int.floor_le_ceil _
    unfold extractFramesFromVideo
    omega
  · exact sampleLoop_chain duration encode _ 0
  · intro t ht
    obtain ⟨h1, h2, k, hk⟩ := sampleLoop_timestamps_mem duration encode _ 0 t ht
    exact ⟨h1, ⟨k, by omega⟩, h2⟩
  · intro k hk
    have hfuel : k < ⌈duration⌉.toNat + 2 := by
      have h1 : ((k : ℤ) : ℚ) ≤ duration := by
        push_cast at hk ⊢
        linarith
      have h2 : (k : ℤ) ≤ ⌈duration⌉ := by
        exact_mod_cast le_trans h1 (Int.le_ceil duration)
      omega
    have := sampleLoop_complete duration encode (⌈duration⌉.toNat + 2) 0 k hfuel
      (by push_cast at hk ⊢; linarith)
    simpa using this

/-- Witness for C1 at a concrete 5-second video. -/
theorem extractFramesFromVideo_spec_witness :
    (0 : ℚ) ≤ 5 ∧
    ((((extractFramesFromVideo 5 (fun _ => "")).length : ℤ) ≤ ⌈(5 : ℚ) / 2⌉ + 1) ∧
    List.Chain' (· < ·)
      ((extractFramesFromVideo 5 (fun _ => "")).map VideoFrame.timestamp) ∧
    (∀ t ∈ (extractFramesFromVideo 5 (fun _ => "")).map VideoFrame.timestamp,
      0 ≤ t ∧ 2 ∣ t ∧ (t : ℚ) ≤ 5) ∧
    (∀ k : ℕ, ((2 * k : ℤ) : ℚ) ≤ 5 →
      (2 * k : ℤ) ∈ (extractFramesFromVideo 5 (fun _ => "")).map VideoFrame.timestamp)) :=
  ⟨by norm_num, extractFramesFromVideo_spec 5 (fun _ => "") (by norm_num)⟩

/-- Decidable equality for `Except`, used to evaluate concrete runs. -/
instance {ε α : Type} [DecidableEq ε] [DecidableEq α] : DecidableEq (Except ε α)
  | Except.ok a, Except.ok b =>
      if h : a = b then isTrue (by rw [h]) else isFalse (by simp [h])
  | Except.ok _, Except.error _ => isFalse (by simp)
  | Except.error _, Except.ok _ => isFalse (by simp)
  | Except.error e, Except.error f =>
      if h : e = f then isTrue (by rw [h]) else isFalse (by simp [h])

/-- The code's `formattedText` (for a successful analysis) agrees with the
specification's description of the Result Formatter (shared helper). -/
theorem formattedText_eq_spec (transcriptions : List Transcription)
    (videoDuration : Option ℚ) :
    formattedText AppStatus.success transcriptions videoDuration
      = formattedTextSpec transcriptions videoDuration := by
  cases transcriptions with
  | nil => simp [formattedText, formattedTextSpec, joinLines]
  | cons t ts =>
      have hne := joinLines_transcriptions_ne_empty t ts
      simp only [List.map_cons] at hne
      simp [formattedText, formattedTextSpec]
      intro h
      exact absurd h hne

/-- C2: for a completed analysis, the Result Formatter returns one
`"timestamp text"` line per entry joined by newlines followed by the final
`"clip length mm:ss"` line, and exactly the clip-length line for an empty
entry list; as a pure function of its three inputs it is side-effect-free
and idempotent (equal inputs give equal output by definition in this
model). -/
theorem formattedText_refines (transcriptions : List Transcription)
    (videoDuration : Option ℚ) :
    formattedText AppStatus.success transcriptions videoDuration
      = formattedTextSpec transcriptions videoDuration ∧
    formattedText AppStatus.success [] videoDuration
      = "clip length " ++ formatDuration videoDuration :=
  ⟨formattedText_eq_spec transcriptions videoDuration,
   formattedText_eq_spec [] videoDuration⟩

/-- A padded pair around a colon always has five characters. -/
theorem pad_pair_length (m r : ℕ) (hm : m < 100) (hr : r < 100) :
    (padStart2 (toString (m : ℤ)) ++ ":" ++ padStart2 (toString (r : ℤ))).length = 5 := by
  have hm'' : (padStart2 (toString (m : ℤ))).data
      = [Nat.digitChar (m / 10), Nat.digitChar (m % 10)] := padStart2_toList m hm
  have hr'' : (padStart2 (toString (r : ℤ))).data
      = [Nat.digitChar (r / 10), Nat.digitChar (r % 10)] := padStart2_toList r hr
  show (padStart2 (toString (m : ℤ)) ++ ":" ++ padStart2 (toString (r : ℤ))).data.length = 5
  rw [String.data_append, String.data_append, hm'', hr'']
  rfl

/-- C3: the `"mm:ss"` formatters zero-pad both fields to two digits (the
formatted string has exactly five characters) and round-trip through
`60*mm + ss` for every integer number of seconds in `[0, 3599]`; in
particular `65` formats as `"01:05"` and `0` as `"00:00"`. -/
theorem formatTimestamp_roundTrip :
    (∀ n : ℕ, n ≤ 3599 →
      parseMmSs (formatTimestamp (n : ℚ)) = some n ∧
      parseMmSs (formatDuration (some (n : ℚ))) = some n ∧
      (formatTimestamp (n : ℚ)).length = 5) ∧
    formatTimestamp 65 = "01:05" ∧ formatTimestamp 0 = "00:00" := by
  refine ⟨?_, by decide, by decide⟩
  intro n hn
  have hm : n / 60 < 100 := by omega
  have hr : n % 60 < 100 := by omega
  refine ⟨?_, ?_, ?_⟩
  · rw [formatTimestamp_natCast, parseMmSs_pad_pair _ _ hm hr]
    congr 1
    omega
  · rw [formatDuration_natCast, parseMmSs_pad_pair _ _ hm hr]
    congr 1
    omega
  · rw [formatTimestamp_natCast]
    exact pad_pair_length _ _ hm hr

/-- Witness for C3 at the concrete input 65 seconds. -/
theorem formatTimestamp_roundTrip_witness :
    (65 : ℕ) ≤ 3599 ∧
    (parseMmSs (formatTimestamp ((65 : ℕ) : ℚ)) = some 65 ∧
     parseMmSs (formatDuration (some ((65 : ℕ) : ℚ))) = some 65 ∧
     (formatTimestamp ((65 : ℕ) : ℚ)).length = 5) :=
  ⟨by norm_num, formatTimestamp_roundTrip.1 65 (by norm_num)⟩

section ScanLemmas

/-- The scanning loop returns the payload of the first part that carries
inline image data. -/
theorem firstInlineImage_eq_find (parts : List GenPart) :
    firstInlineImage parts = (parts.find? isInlineImagePart).map partData := by
  induction parts with
  | nil => rfl
  | cons p rest ih =>
      cases hp : p.inlineData with
      | none =>
          have hb : isInlineImagePart p = false := by simp [isInlineImagePart, hp]
          simp [firstInlineImage, hp, List.find?_cons, hb, ih]
      | some d =>
          by_cases hs : d.mimeType.startsWith "image/"
          · have hb : isInlineImagePart p = true := by simp [isInlineImagePart, hp, hs]
            simp [firstInlineImage, hp, hs, List.find?_cons, hb, partData]
          · have hb : isInlineImagePart p = false := by
              simp [isInlineImagePart, hp]
              exact Bool.of_not_eq_true hs
            simp [firstInlineImage, hp, hs, List.find?_cons, hb, ih]

end ScanLemmas

/-- C8: both the single-frame isolate-text rewrite and the general image
edit return the payload of the first response part carrying inline image
data, and return their explicit no-image error exactly when the response
(the first candidate's content parts, empty also when candidates, content,
or parts are absent, e.g. after a safety block) contains no inline image
part. -/
theorem responseImageScan_spec (r : GenResponse) :
    processFrameForTextExtraction r
      = (match (responseParts r).find? isInlineImagePart with
         | some p => Except.ok (partData p)
         | none => Except.error "Could not find generated image in the API response. The request may have been blocked due to safety policies.") ∧
    editImage r
      = (match (responseParts r).find? isInlineImagePart with
         | some p => Except.ok (partData p)
         | none => Except.error "Could not find edited image in the API response. The request may have been blocked due to safety policies.") := by
  obtain ⟨cands⟩ := r
  cases cands with
  | none => exact ⟨rfl, rfl⟩
  | some l =>
      cases l with
      | nil => exact ⟨rfl, rfl⟩
      | cons c rest =>
          obtain ⟨ct⟩ := c
          cases ct with
          | none => exact ⟨rfl, rfl⟩
          | some content =>
              obtain ⟨parts⟩ := content
              cases parts with
              | none => exact ⟨rfl, rfl⟩
              | some ps =>
                  have hrp :
                      responseParts ⟨some (⟨some ⟨some ps⟩⟩ :: rest)⟩ = ps := rfl
                  rw [hrp]
                  constructor
                  · show (match firstInlineImage ps with
                      | some data => Except.ok data
                      | none => Except.error "Could not find generated image in the API response. The request may have been blocked due to safety policies.") =
                      (match ps.find? isInlineImagePart with
                       | some p => Except.ok (partData p)
                       | none => Except.error "Could not find generated image in the API response. The request may have been blocked due to safety policies.")
                    rw [firstInlineImage_eq_find]
                    cases ps.find? isInlineImagePart <;> rfl
                  · show (match firstInlineImage ps with
                      | some data => Except.ok data
                      | none => Except.error "Could not find edited image in the API response. The request may have been blocked due to safety policies.") =
                      (match ps.find? isInlineImagePart with
                       | some p => Except.ok (partData p)
                       | none => Except.error "Could not find edited image in the API response. The request may have been blocked due to safety policies.")
                    rw [firstInlineImage_eq_find]
                    cases ps.find? isInlineImagePart <;> rfl

/-- C10: `analyzeVideoForText` fails with the explicit error
`'Could not extract any frames from the video.'` on an empty frame list,
dispatching no AI request; the batch transcription call is only ever
dispatched with a non-empty frame sequence. -/
theorem analyzeVideoForText_guard (frames : List VideoFrame)
    (aiResult : Except String (List RawTranscription)) :
    (frames = [] →
      analyzeVideoForText frames aiResult
        = (Except.error "Could not extract any frames from the video.", [])) ∧
    ((analyzeVideoForText frames aiResult).2 ≠ [] → frames ≠ []) := by
  constructor
  · intro h
    subst h
    rfl
  · intro h2 h
    subst h
    simp [analyzeVideoForText] at h2

/-- Witness for C10 at the empty frame list. -/
theorem analyzeVideoForText_guard_witness :
    analyzeVideoForText [] (Except.ok [])
      = (Except.error "Could not extract any frames from the video.", []) :=
  (analyzeVideoForText_guard [] (Except.ok [])).1 rfl

/-- C5: end-to-end — analysing a 130-second video sampled at 2 s, with the
model returning the raw entries `(0, "HELLO")` and `(4, "WORLD")`, produces
the transcript text `"00:00 HELLO\n00:04 WORLD\nclip length 02:10"`. -/
theorem endToEnd_scenario :
    (analyzeVideoForText (extractFramesFromVideo 130 (fun _ => ""))
        (Except.ok [⟨0, "HELLO"⟩, ⟨4, "WORLD"⟩])).1.map
      (fun results => formattedText AppStatus.success results (some 130))
      = Except.ok "00:00 HELLO\n00:04 WORLD\nclip length 02:10" := by
  have h66 : (extractFramesFromVideo 130 (fun _ => "")).length = 66 := by decide
  have hts0 : formatTimestamp ((0 : ℤ) : ℚ) = "00:00" := by decide
  have hts4 : formatTimestamp ((4 : ℤ) : ℚ) = "00:04" := by decide
  have hdur : formatDuration (some (130 : ℚ)) = "02:10" := by
    have h := formatDuration_natCast 130
    have hc : ((130 : ℕ) : ℚ) = (130 : ℚ) := by norm_num
    rw [hc] at h
    rw [h]
    decide
  have hres : (analyzeVideoForText (extractFramesFromVideo 130 (fun _ => ""))
      (Except.ok [⟨0, "HELLO"⟩, ⟨4, "WORLD"⟩])).1
      = Except.ok [⟨"00:00", "HELLO"⟩, ⟨"00:04", "WORLD"⟩] := by
    simp only [analyzeVideoForText, h66]
    rw [if_neg (by norm_num)]
    simp only [List.map_cons, List.map_nil]
    rw [hts0, hts4]
  rw [hres]
  show Except.ok
      (formattedText AppStatus.success [⟨"00:00", "HELLO"⟩, ⟨"00:04", "WORLD"⟩] (some 130))
    = Except.ok "00:00 HELLO\n00:04 WORLD\nclip length 02:10"
  rw [formattedText_eq_spec]
  show Except.ok
      (joinLines [transcriptionLine ⟨"00:00", "HELLO"⟩, transcriptionLine ⟨"00:04", "WORLD"⟩]
        ++ "\n" ++ ("clip length " ++ formatDuration (some 130)))
    = Except.ok "00:00 HELLO\n00:04 WORLD\nclip length 02:10"
  rw [hdur]
  rfl

/-! ### `App.tsx`: `handleInsertTimestamp` (lines 301-351)

```
const cursorPosition = textarea.selectionStart;
const lineStartIndex = text.lastIndexOf('\n', cursorPosition - 1) + 1;
let lineEndIndex = text.indexOf('\n', cursorPosition);
if (lineEndIndex === -1) { lineEndIndex = text.length; }
const currentLine = text.substring(lineStartIndex, lineEndIndex);
const timestampRegex = /^\d{2}:\d{2}/;
if (timestampRegex.test(currentLine)) {
    const newLine = currentLine.replace(timestampRegex, timeToInsert);
    const newText = text.substring(0, lineStartIndex) + newLine + text.substring(lineEndIndex);
    ...
} else {
    const start = textarea.selectionStart;
    const end = textarea.selectionEnd;
    const newText = text.substring(0, start) + timeToInsert + text.substring(end);
    ...
}
```

The text is carried as a `List Char`; `lastIndexOf`/`indexOf`/`substring`
are modelled with JavaScript's clamping rules (`lastIndexOf` clamps a
negative position to `0`, `substring` swaps out-of-order bounds).  The regex
`^\d{2}:\d{2}` matches exactly the first five characters when they have the
shape digit-digit-colon-digit-digit, and `replace` on it substitutes
`timeToInsert` for those five characters. -/

/-- Index of the first `'\n'` of a character list, if any. -/
def firstNl : List Char → Option ℕ
  | [] => none
  | c :: rest => if c = '\n' then some 0 else (firstNl rest).map (· + 1)

/-- Index of the last `'\n'` of a character list, if any. -/
def lastNl : List Char → Option ℕ
  | [] => none
  | c :: rest =>
      match lastNl rest with
      | some i => some (i + 1)
      | none => if c = '\n' then some 0 else none

/-- JavaScript `text.indexOf('\n', fromIdx)` (as an `Option` instead of the
`-1` sentinel): the first occurrence at an index `≥ fromIdx`. -/
def indexOfNlFrom (text : List Char) (fromIdx : ℕ) : Option ℕ :=
  (firstNl (text.drop fromIdx)).map (fromIdx + ·)

/-- JavaScript `text.lastIndexOf('\n', fromIdx)`: a negative position is
clamped to `0`; the result is the last occurrence at an index `≤ fromIdx`,
or `-1` when there is none. -/
def lastIndexOfNl (text : List Char) (fromIdx : ℤ) : ℤ :=
  match lastNl (text.take ((max fromIdx 0).toNat + 1)) with
  | some i => (i : ℤ)
  | none => -1

/-- JavaScript `text.substring(a, b)`: clamp both ends to the length, swap
them if out of order. -/
def jsSubstring (text : List Char) (a b : ℕ) : List Char :=
  let a' := min a text.length
  let b' := min b text.length
  (text.take (max a' b')).drop (min a' b')

/-- The test of the regex `^\d{2}:\d{2}`. -/
def matchesTs : List Char → Bool
  | a :: b :: c :: d :: e :: _ =>
      a.isDigit && b.isDigit && c = ':' && d.isDigit && e.isDigit
  | _ => false

/-- `handleInsertTimestamp` from `App.tsx`, as the pure transformation it
performs on the transcript text (`text`), given the selection
(`selStart`, `selEnd`) and the formatted current time (`timeToInsert`). -/
def handleInsertTimestamp (text : List Char) (selStart selEnd : ℕ)
    (timeToInsert : List Char) : List Char :=
  let cursorPosition := selStart
  let lineStartIndex : ℕ := (lastIndexOfNl text ((cursorPosition : ℤ) - 1) + 1).toNat
  let lineEndIndex : ℕ :=
    match indexOfNlFrom text cursorPosition with
    | some i => i
    | none => text.length
  let currentLine := jsSubstring text lineStartIndex lineEndIndex
  if matchesTs currentLine then
    jsSubstring text 0 lineStartIndex ++ (timeToInsert ++ currentLine.drop 5) ++
      text.drop lineEndIndex
  else
    jsSubstring text 0 selStart ++ timeToInsert ++ text.drop selEnd

section NewlineLemmas

/-- No first newline in a newline-free list. -/
theorem firstNl_of_not_mem (a : List Char) (h : '\n' ∉ a) : firstNl a = none := by
  induction a with
  | nil => rfl
  | cons c rest ih =>
      have hc : ¬ c = '\n' := fun hcc => h (hcc ▸ List.mem_cons_self c rest)
      have hr : '\n' ∉ rest := fun hm => h (List.mem_cons_of_mem c hm)
      simp [firstNl, hc, ih hr]

/-- The first newline after a newline-free prefix is the one that follows
it. -/
theorem firstNl_append_cons (a b : List Char) (h : '\n' ∉ a) :
    firstNl (a ++ '\n' :: b) = some a.length := by
  induction a with
  | nil => simp [firstNl]
  | cons c rest ih =>
      have hc : ¬ c = '\n' := fun hcc => h (hcc ▸ List.mem_cons_self c rest)
      have hr : '\n' ∉ rest := fun hm => h (List.mem_cons_of_mem c hm)
      simp [firstNl, hc, ih hr]

/-- No last newline in a newline-free list. -/
theorem lastNl_of_not_mem (a : List Char) (h : '\n' ∉ a) : lastNl a = none := by
  induction a with
  | nil => rfl
  | cons c rest ih =>
      have hc : ¬ c = '\n' := fun hcc => h (hcc ▸ List.mem_cons_self c rest)
      have hr : '\n' ∉ rest := fun hm => h (List.mem_cons_of_mem c hm)
      simp [lastNl, hc, ih hr]

/-- The last newline of an appended list: in the right part if it has one,
otherwise in the left part. -/
theorem lastNl_append (a b : List Char) :
    lastNl (a ++ b) =
      (match lastNl b with
       | some j => some (a.length + j)
       | none => lastNl a) := by
  induction a with
  | nil => cases h : lastNl b <;> simp [h, lastNl]
  | cons c rest ih =>
      show lastNl (c :: (rest ++ b)) = _
      simp only [lastNl, ih]
      cases h : lastNl b with
      | none => simp [lastNl]
      | some j =>
          cases hr : lastNl rest <;> simp [List.length_cons] <;> omega

end NewlineLemmas

section LineBoundLemmas

/-- Taking up to a position inside the middle segment of a three-way
decomposition. -/
theorem take_middle (P L S : List Char) (n : ℕ) (h1 : P.length ≤ n)
    (h2 : n ≤ P.length + L.length) :
    (P ++ (L ++ S)).take n = P ++ L.take (n - P.length) := by
  obtain ⟨m, rfl⟩ : ∃ m, n = P.length + m := ⟨n - P.length, by omega⟩
  rw [List.take_append, List.take_append_of_le_length (by omega : m ≤ L.length),
    Nat.add_sub_cancel_left]

/-- Dropping from a position inside the middle segment of a three-way
decomposition. -/
theorem drop_middle (P L S : List Char) (n : ℕ) (h1 : P.length ≤ n)
    (h2 : n ≤ P.length + L.length) :
    (P ++ (L ++ S)).drop n = L.drop (n - P.length) ++ S := by
  obtain ⟨m, rfl⟩ : ∃ m, n = P.length + m := ⟨n - P.length, by omega⟩
  rw [List.drop_append, List.drop_append_of_le_length (by omega : m ≤ L.length),
    Nat.add_sub_cancel_left]

/-- The computed line end (`indexOf('\n', cursor)` with the `-1` fallback)
of a cursor inside the line `L` is the end of `L`. -/
theorem lineEnd_correct (P L S : List Char) (selStart : ℕ)
    (hL : '\n' ∉ L) (hS : S = [] ∨ ∃ T, S = '\n' :: T)
    (hlo : P.length ≤ selStart) (hhi : selStart ≤ P.length + L.length) :
    (match indexOfNlFrom (P ++ (L ++ S)) selStart with
     | some i => i
     | none => (P ++ (L ++ S)).length) = P.length + L.length := by
  have hdrop := drop_middle P L S selStart hlo hhi
  have hLd : '\n' ∉ L.drop (selStart - P.length) :=
    fun hm => hL ((List.drop_sublist _ _).mem hm)
  rcases hS with rfl | ⟨T, rfl⟩
  · have hnone : firstNl ((P ++ (L ++ [])).drop selStart) = none := by
      rw [hdrop, List.append_nil]
      exact firstNl_of_not_mem _ hLd
    simp only [indexOfNlFrom, hnone, Option.map_none']
    simp [List.length_append]
  · have hsome : firstNl ((P ++ (L ++ '\n' :: T)).drop selStart)
        = some (L.length - (selStart - P.length)) := by
      rw [hdrop, firstNl_append_cons _ _ hLd, List.length_drop]
    simp only [indexOfNlFrom, hsome, Option.map_some']
    show selStart + (L.length - (selStart - P.length)) = P.length + L.length
    omega

/-- The computed line start (`lastIndexOf('\n', cursor - 1) + 1`) of a
cursor inside the line `L` is the start of `L` — except in the corner case
of a cursor at position `0` on an empty first line followed by a newline,
where JavaScript's clamping of the `-1` position makes it `1`. -/
theorem lineStart_correct (P L S : List Char) (selStart : ℕ)
    (hP : P = [] ∨ ∃ Q, P = Q ++ ['\n']) (hL : '\n' ∉ L)
    (hS : S = [] ∨ ∃ T, S = '\n' :: T)
    (hlo : P.length ≤ selStart) (hhi : selStart ≤ P.length + L.length) :
    (lastIndexOfNl (P ++ (L ++ S)) ((selStart : ℤ) - 1) + 1).toNat = P.length
    ∨ (P = [] ∧ L = [] ∧ selStart = 0 ∧ (∃ T, S = '\n' :: T)
       ∧ (lastIndexOfNl (P ++ (L ++ S)) ((selStart : ℤ) - 1) + 1).toNat = 1) := by
  cases selStart with
  | zero =>
      have hPnil : P = [] := List.length_eq_zero.mp (by omega)
      subst hPnil
      have hmax : ((max ((0 : ℤ) - 1) 0).toNat + 1) = 1 := by norm_num
      cases L with
      | cons c L' =>
          left
          have hc : '\n' ∉ [c] := by
            simp only [List.mem_singleton]
            intro h
            exact hL (List.mem_cons.mpr (Or.inl h))
          have hone : lastNl [c] = none := lastNl_of_not_mem _ hc
          simp [lastIndexOfNl, hmax, hone]
      | nil =>
          rcases hS with rfl | ⟨T, rfl⟩
          · left
            simp [lastIndexOfNl, hmax, lastNl]
          · right
            refine ⟨rfl, rfl, rfl, ⟨T, rfl⟩, ?_⟩
            simp [lastIndexOfNl, hmax, lastNl]
  | succ k =>
      left
      have hmax : ((max ((k + 1 : ℕ) - 1 : ℤ) 0).toNat + 1) = k + 1 := by
        push_cast
        omega
      have htake := take_middle P L S (k + 1) hlo hhi
      have hLt : '\n' ∉ L.take (k + 1 - P.length) :=
        fun hm => hL ((List.take_sublist _ _).mem hm)
      have hlast : lastNl ((P ++ (L ++ S)).take (k + 1)) = lastNl P := by
        rw [htake, lastNl_append, lastNl_of_not_mem _ hLt]
      rcases hP with rfl | ⟨Q, rfl⟩
      · have h0 : lastNl (([] : List Char)) = none := rfl
        rw [h0] at hlast
        simp only [List.nil_append] at hlast
        simp [lastIndexOfNl, hmax, hlast]
      · have hQ : lastNl (Q ++ ['\n']) = some Q.length := by
          rw [lastNl_append]
          simp [lastNl]
        rw [hQ] at hlast
        simp only [lastIndexOfNl, hmax, hlast]
        simp [List.length_append]

end LineBoundLemmas

section SubstringLemmas

/-- `substring` with ordered, in-range bounds is take-then-drop. -/
theorem jsSubstring_of_le (l : List Char) (a b : ℕ) (hab : a ≤ b)
    (hbl : b ≤ l.length) : jsSubstring l a b = (l.take b).drop a := by
  simp only [jsSubstring]
  have ha : min a l.length = a := by omega
  have hb : min b l.length = b := by omega
  rw [ha, hb]
  have hmx : max a b = b := by omega
  have hmn : min a b = a := by omega
  rw [hmx, hmn]

/-- `substring(0, n)` is `take n` for an in-range `n`. -/
theorem jsSubstring_zero (l : List Char) (n : ℕ) (h : n ≤ l.length) :
    jsSubstring l 0 n = l.take n := by
  rw [jsSubstring_of_le l 0 n (Nat.zero_le n) h, List.drop_zero]

/-- The substring between the computed line bounds is exactly the middle
line of the decomposition. -/
theorem jsSubstring_middle (P L S : List Char) :
    jsSubstring (P ++ (L ++ S)) P.length (P.length + L.length) = L := by
  rw [jsSubstring_of_le _ _ _ (by omega) (by simp [List.length_append])]
  rw [take_middle P L S (P.length + L.length) (by omega) (by omega)]
  rw [Nat.add_sub_cancel_left, List.take_length, List.drop_left]

/-- A line matching the `^\d{2}:\d{2}` test has at least five characters. -/
theorem matchesTs_length (L : List Char) (h : matchesTs L = true) : 5 ≤ L.length := by
  rcases L with _ | ⟨a, _ | ⟨b, _ | ⟨c, _ | ⟨d, _ | ⟨e, rest⟩⟩⟩⟩⟩
  · exact absurd h (by simp [matchesTs])
  · exact absurd h (by simp [matchesTs])
  · exact absurd h (by simp [matchesTs])
  · exact absurd h (by simp [matchesTs])
  · exact absurd h (by simp [matchesTs])
  · simp only [List.length_cons]
    omega

end SubstringLemmas

/-- C4: timestamp insertion.  Write the transcript as `P ++ L ++ S` where
`L` is the line containing the cursor (`P` is empty or ends with a newline,
`L` contains none, `S` is empty or starts with the next newline) and the
selection lies inside `L`.  If `L` starts with a `\d{2}:\d{2}` token,
inserting the current timestamp replaces exactly that five-character prefix
of `L`, leaving the rest of `L` and every other line (`P` and `S`)
unchanged; otherwise the timestamp replaces just the selected range of `L`,
leaving every other line unchanged. -/
theorem handleInsertTimestamp_spec (P L S timeToInsert : List Char)
    (selStart selEnd : ℕ)
    (hP : P = [] ∨ ∃ Q, P = Q ++ ['\n']) (hL : '\n' ∉ L)
    (hS : S = [] ∨ ∃ T, S = '\n' :: T)
    (hlo : P.length ≤ selStart) (hhi : selStart ≤ P.length + L.length)
    (hsel : selStart ≤ selEnd) (hselEnd : selEnd ≤ P.length + L.length) :
    (matchesTs L = true →
      handleInsertTimestamp (P ++ (L ++ S)) selStart selEnd timeToInsert
        = P ++ (timeToInsert ++ (L.drop 5 ++ S))) ∧
    (matchesTs L = false →
      handleInsertTimestamp (P ++ (L ++ S)) selStart selEnd timeToInsert
        = P ++ (L.take (selStart - P.length) ++
            (timeToInsert ++ (L.drop (selEnd - P.length) ++ S)))) := by
  have hle := lineEnd_correct P L S selStart hL hS hlo hhi
  have hls := lineStart_correct P L S selStart hP hL hS hlo hhi
  have hlen : (P ++ (L ++ S)).length = P.length + L.length + S.length := by
    simp [List.length_append]
    omega
  have htakeP : (P ++ (L ++ S)).take P.length = P := List.take_left P (L ++ S)
  have hdropS : (P ++ (L ++ S)).drop (P.length + L.length) = S := by
    rw [drop_middle P L S (P.length + L.length) (by omega) (by omega),
      Nat.add_sub_cancel_left, List.drop_length, List.nil_append]
  have htake0 : jsSubstring (P ++ (L ++ S)) 0 selStart
      = P ++ L.take (selStart - P.length) := by
    rw [jsSubstring_zero _ _ (by omega), take_middle P L S selStart hlo hhi]
  have hdropEnd : (P ++ (L ++ S)).drop selEnd = L.drop (selEnd - P.length) ++ S :=
    drop_middle P L S selEnd (by omega) hselEnd
  constructor
  · intro hm
    have h5 := matchesTs_length L hm
    have hlsv : (lastIndexOfNl (P ++ (L ++ S)) ((selStart : ℤ) - 1) + 1).toNat
        = P.length := by
      rcases hls with h | ⟨_, hLnil, _, _, _⟩
      · exact h
      · rw [hLnil] at h5
        simp at h5
    simp only [handleInsertTimestamp, hlsv, hle, jsSubstring_middle, hm, if_true]
    rw [jsSubstring_zero _ _ (by omega), htakeP, hdropS]
    simp [List.append_assoc]
  · intro hm
    rcases hls with hlsv | ⟨hPnil, hLnil, hsel0, ⟨T, hST⟩, hlsv⟩
    · simp only [handleInsertTimestamp, hlsv, hle, jsSubstring_middle, hm,
        Bool.false_eq_true, if_false]
      rw [htake0, hdropEnd]
      simp [List.append_assoc]
    · subst hPnil
      subst hLnil
      subst hST
      have hcl : jsSubstring (([] : List Char) ++ ([] ++ '\n' :: T)) 1 0 = ['\n'] := by
        unfold jsSubstring
        simp
      have hle0 : (match indexOfNlFrom (([] : List Char) ++ ([] ++ '\n' :: T)) selStart with
           | some i => i
           | none => (([] : List Char) ++ ([] ++ '\n' :: T)).length) = 0 := by
        simpa using hle
      simp only [handleInsertTimestamp, hlsv, hle0, hcl]
      have hmq : matchesTs ['\n'] = false := rfl
      rw [hmq]
      simp only [Bool.false_eq_true, if_false]
      rw [htake0, hdropEnd]
      simp [List.append_assoc]

/-- Witness for C4: in `"ab\n01:23 x\nz"` with the cursor on the middle
line, the token `01:23` is replaced by the inserted time, everything else
unchanged. -/
theorem handleInsertTimestamp_spec_witness :
    handleInsertTimestamp
        (['a', 'b', '\n'] ++ (['0', '1', ':', '2', '3', ' ', 'x'] ++ ['\n', 'z']))
        4 4 ['9', '9', ':', '5', '9']
      = ['a', 'b', '\n'] ++ (['9', '9', ':', '5', '9'] ++
          (['0', '1', ':', '2', '3', ' ', 'x'].drop 5 ++ ['\n', 'z'])) :=
  (handleInsertTimestamp_spec ['a', 'b', '\n'] ['0', '1', ':', '2', '3', ' ', 'x']
    ['\n', 'z'] ['9', '9', ':', '5', '9'] 4 4
    (Or.inr ⟨['a', 'b'], rfl⟩) (by decide) (Or.inr ⟨['z'], rfl⟩)
    (by decide) (by decide) (by decide) (by decide)).1 (by decide)

/-! ### `App.tsx`: the UI Shell session state and its operations

The component's `useState` fields that the claims concern are collected in
`AppState`.  Object URLs are modelled as tokens drawn from a counter held in
the state (`URL.createObjectURL` returns a fresh token; `revokeObjectURL` is
a no-op on the state).  Each user operation is one atomic transformation:
the code `await`s every external step and no other handler runs in between
(browser event loop plus the busy-flag discipline), so a handler is a
function of the session state and of the outcomes of its external calls
(canvas context / blob creation, `fetch`, the file reader, and the AI
calls, the last reported in the returned `List AiCall`). -/

/-- The mutable session state of the `App` component (`App.tsx` lines
31-53).  File handles are carried as file names. -/
structure AppState where
  videoFile : Option String
  externalImageFile : Option String
  videoDuration : Option ℚ
  videoUrl : Option ℕ
  capturedFrameUrl : Option ℕ
  editedFrameUrl : Option ℕ
  videoCurrentTime : ℚ
  capturedTime : ℚ
  status : AppStatus
  transcriptions : List Transcription
  error : Option String
  progressMessage : String
  editableText : String
  isCapturing : Bool
  isCapturingFrame : Bool
  isReWriting : Bool
  isEditing : Bool
  editPrompt : String
  quickEditLoadingKey : Option String
  isImagePreviewVisible : Bool
  isReWritePopupOpen : Bool
  isReWritingFromPopup : Bool
  urlCounter : ℕ
deriving DecidableEq

/-- `isAnyTaskRunning` from `App.tsx` line 482. -/
def isAnyTaskRunning (s : AppState) : Bool :=
  s.isCapturing || s.isEditing || s.isCapturingFrame || s.isReWriting ||
    s.isReWritingFromPopup

/-- `URL.createObjectURL`: a fresh token. -/
def freshUrl (s : AppState) : ℕ × AppState :=
  (s.urlCounter, { s with urlCounter := s.urlCounter + 1 })

/-- JavaScript `err.message || fallback` (an empty message is falsy). -/
def messageOr (e fallback : String) : String :=
  if e = "" then fallback else e

/-- `QUICK_EDIT_PROMPTS` from `App.tsx` lines 18-26. -/
def QUICK_EDIT_PROMPTS : String → Option String
  | "BG1" => some "From the provided image, extract only the text and numbers, preserving their original colors and positions. Place them on a solid, uniform background with the color rgb(139, 195, 74). If any text or numbers are inside a box, make the background of that box also rgb(139, 195, 74). The final output should contain only the text, numbers, and the new background. Ensure all text and numbers are sharp and clear."
  | "BG2" => some "From the provided image, extract only the text and numbers. Render them in sharp, clear white color. Place them on a solid, uniform background with the color rgb(139, 195, 74). If any text or numbers are inside a box, they must remain within their original boxes. The final output must contain only the white text/numbers and this background."
  | "BG3" => some "From the provided image, extract only the text and numbers. Render them in sharp, clear white color. Place them on a solid, uniform green background. If any text or numbers are inside a box, they must remain within their original boxes. The final output must contain only the white text/numbers and this background."
  | "LOGO" => some "Remove all logos and the specific text 'NotebookLM' from the image. The rest of the image should remain unchanged."
  | "TEXT_COLOR" => some "Change the color of all text and numbers in the image to white. Ensure they are sharp and clear, not blurry. Do not alter any other part of the image."
  | "OUTLINE" => some "Change all text and numbers in the image to be white with a black outline. Ensure they are sharp, clear, and easy to read. Do not alter any other part of the image."
  | "DEL_PIC" => some "Remove all pictorial elements from the image, leaving only text, numbers, and the original background. The text and numbers should retain their original colors and positions."
  | _ => none

/-- `handleFileChange` (`App.tsx` lines 138-172): ignore an empty
selection; otherwise swap the object URL, reset all downstream state to
`idle`, and asynchronously read the duration from the metadata (which
either delivers a duration or stores the metadata error message). -/
def handleFileChange (s : AppState) (file : Option String)
    (metadata : Except Unit ℚ) : AppState :=
  match file with
  | none => s
  | some f =>
      let u := (freshUrl s).1
      let s := (freshUrl s).2
      let s := { s with
        videoUrl := some u
        videoFile := some f
        status := AppStatus.idle
        transcriptions := []
        error := none
        videoDuration := none
        videoCurrentTime := 0
        editableText := ""
        capturedFrameUrl := none
        editedFrameUrl := none
        editPrompt := ""
        externalImageFile := none
        isImagePreviewVisible := false }
      match metadata with
      | Except.ok d => { s with videoDuration := some d }
      | Except.error _ =>
          { s with error := some "Could not read video metadata.", videoDuration := none }

/-- `handleImageFileChange` (`App.tsx` lines 174-191). -/
def handleImageFileChange (s : AppState) (file : Option String) : AppState :=
  match file with
  | none => s
  | some f =>
      let u := (freshUrl s).1
      let s := (freshUrl s).2
      { s with
        capturedFrameUrl := some u
        editedFrameUrl := none
        capturedTime := 0
        externalImageFile := some f
        editPrompt := ""
        isImagePreviewVisible := true }

/-- `handleTextFileChange` (`App.tsx` lines 193-208): on a successful read
the text becomes the editable text; on a reader error the error message is
stored and the status becomes `error`. -/
def handleTextFileChange (s : AppState) (file : Option Unit)
    (readResult : Except Unit String) : AppState :=
  match file with
  | none => s
  | some _ =>
      match readResult with
      | Except.ok text => { s with editableText := text }
      | Except.error _ =>
          { s with error := some "Failed to read the selected text file.",
                   status := AppStatus.error }

/-- The synchronous prefix of `handleAnalyzeClick` (`App.tsx` lines
217-237): no-op without a video file, otherwise enter `processing` and
clear the previous results. -/
def handleAnalyzeClickStart (s : AppState) : AppState :=
  if s.videoFile = none then s
  else
    { s with
      status := AppStatus.processing
      error := none
      transcriptions := []
      editableText := ""
      progressMessage := "Starting analysis..." }

/-- The continuation of `handleAnalyzeClick` once `analyzeVideoForText`
settles, including the `useEffect` of lines 262-266 that copies the
formatted text into the editable text on success.  The code attaches this
continuation to the promise, so it fires in whatever state the session is
in by then (it is not guarded by the current status). -/
def handleAnalyzeClickFinish (s : AppState)
    (result : Except String (List Transcription)) : AppState :=
  match result with
  | Except.ok results =>
      let s := { s with transcriptions := results, status := AppStatus.success }
      { s with editableText := formattedText AppStatus.success results s.videoDuration }
  | Except.error e =>
      { s with
        error := some (messageOr e "An unknown error occurred during analysis.")
        status := AppStatus.error }

/-- The analyze button (`App.tsx` line 813) is disabled while the status is
`processing`. -/
def clickAnalyze (s : AppState) : AppState :=
  if s.status = AppStatus.processing then s else handleAnalyzeClickStart s

/-- `handleCaptureFrame` (`App.tsx` lines 360-424): capture the current
video picture to a canvas with the burned-in timestamp overlay and offer it
for download; no AI call is involved. -/
def handleCaptureFrame (s : AppState) (canvasOk blobOk : Bool) : AppState :=
  if s.videoUrl = none ∨ s.videoFile = none then s
  else
    let s := { s with isCapturingFrame := true }
    if ¬ canvasOk then { s with isCapturingFrame := false }
    else if ¬ blobOk then { s with isCapturingFrame := false }
    else
      let s := { s with capturedTime := s.videoCurrentTime }
      let u := (freshUrl s).1
      let s := (freshUrl s).2
      { s with
        capturedFrameUrl := some u
        isImagePreviewVisible := true
        editedFrameUrl := none
        externalImageFile := none
        isCapturingFrame := false }

/-- `handleCaptureText` (`App.tsx` lines 426-480): guarded by
`!video || !videoFile || isCapturing`; draws the frame, calls
`processFrameForTextExtraction`, and in `finally` clears `isCapturing`.
Errors (canvas context or AI) are caught and stored. -/
def handleCaptureText (s : AppState) (canvasOk : Bool)
    (ai : Except String String) : AppState × List AiCall :=
  if s.videoUrl = none ∨ s.videoFile = none ∨ s.isCapturing then (s, [])
  else
    let s := { s with isCapturing := true, error := none }
    if ¬ canvasOk then
      ({ s with
          error := some "Could not get canvas context"
          isCapturing := false }, [])
    else
      let s := { s with capturedTime := s.videoCurrentTime }
      match ai with
      | Except.error e =>
          ({ s with
              error := some (messageOr e "An error occurred while capturing the text frame.")
              isCapturing := false }, [AiCall.processFrame])
      | Except.ok _ =>
          let u := (freshUrl s).1
          let s := (freshUrl s).2
          ({ s with
              capturedFrameUrl := some u
              isImagePreviewVisible := true
              editedFrameUrl := none
              externalImageFile := none
              isCapturing := false }, [AiCall.processFrame])

/-- The capture-text button (`App.tsx` line 871) is disabled while any task
runs. -/
def clickCaptureText (s : AppState) (canvasOk : Bool)
    (ai : Except String String) : AppState × List AiCall :=
  if isAnyTaskRunning s then (s, []) else handleCaptureText s canvasOk ai

/-- `handleReWriteFrame` (`App.tsx` lines 484-556): guarded by
`!video || !videoFile || isAnyTaskRunning`; captures the frame (shown as the
new preview), calls `editImage` with the fixed re-write prompt, and in
`finally` clears `isReWriting`. -/
def handleReWriteFrame (s : AppState) (canvasOk blobOk : Bool)
    (ai : Except String String) : AppState × List AiCall :=
  if s.videoUrl = none ∨ s.videoFile = none ∨ isAnyTaskRunning s then (s, [])
  else
    let s := { s with isReWriting := true, error := none }
    if ¬ canvasOk then
      ({ s with
          error := some "Could not get canvas context"
          isReWriting := false }, [])
    else if ¬ blobOk then
      ({ s with
          error := some "Failed to create blob from canvas."
          isReWriting := false }, [])
    else
      let u := (freshUrl s).1
      let s := (freshUrl s).2
      let s := { s with
        capturedFrameUrl := some u
        capturedTime := s.videoCurrentTime
        isImagePreviewVisible := true
        externalImageFile := none
        editedFrameUrl := none }
      match ai with
      | Except.error e =>
          ({ s with
              error := some (messageOr e "An error occurred during the re-write process.")
              isReWriting := false }, [AiCall.editImage])
      | Except.ok _ =>
          let u2 := (freshUrl s).1
          let s := (freshUrl s).2
          ({ s with editedFrameUrl := some u2, isReWriting := false }, [AiCall.editImage])

/-- The re-write button (`App.tsx` line 880) is disabled while any task
runs. -/
def clickReWriteFrame (s : AppState) (canvasOk blobOk : Bool)
    (ai : Except String String) : AppState × List AiCall :=
  if isAnyTaskRunning s then (s, []) else handleReWriteFrame s canvasOk blobOk ai

/-- `performImageEdit` (`App.tsx` lines 572-597): fetch the preview, call
`editImage`, store the result; every error is caught and stored, and the
`finally` clears `isEditing` and the quick-edit key. -/
def performImageEdit (s : AppState) (fetchRes : Except String Unit)
    (ai : Except String String) : AppState × List AiCall :=
  let s := { s with isEditing := true, error := none }
  match fetchRes with
  | Except.error e =>
      ({ s with
          error := some (messageOr e "An error occurred while editing the image.")
          isEditing := false
          quickEditLoadingKey := none }, [])
  | Except.ok _ =>
      match ai with
      | Except.error e =>
          ({ s with
              error := some (messageOr e "An error occurred while editing the image.")
              isEditing := false
              quickEditLoadingKey := none }, [AiCall.editImage])
      | Except.ok _ =>
          let u := (freshUrl s).1
          let s := (freshUrl s).2
          ({ s with
              editedFrameUrl := some u
              isEditing := false
              quickEditLoadingKey := none }, [AiCall.editImage])

/-- `handleEditImage` (`App.tsx` lines 559-563): guarded by
`!capturedFrameUrl || !editPrompt.trim() || isEditing`; afterwards the
prompt is cleared (`performImageEdit` never throws). -/
def handleEditImage (s : AppState) (fetchRes : Except String Unit)
    (ai : Except String String) : AppState × List AiCall :=
  if s.capturedFrameUrl = none ∨ s.editPrompt.trim = "" ∨ s.isEditing then (s, [])
  else
    let r := performImageEdit s fetchRes ai
    ({ r.1 with editPrompt := "" }, r.2)

/-- The apply-edit button (`App.tsx` line 1070) is disabled when the prompt
is blank or any task runs. -/
def clickEditImage (s : AppState) (fetchRes : Except String Unit)
    (ai : Except String String) : AppState × List AiCall :=
  if s.editPrompt.trim = "" ∨ isAnyTaskRunning s then (s, [])
  else handleEditImage s fetchRes ai

/-- `handleQuickEdit` (`App.tsx` lines 565-570): look the key up in
`QUICK_EDIT_PROMPTS`, guard on `!capturedFrameUrl || !prompt || isEditing`,
record the loading key and run `performImageEdit`. -/
def handleQuickEdit (s : AppState) (key : String) (fetchRes : Except String Unit)
    (ai : Except String String) : AppState × List AiCall :=
  if s.capturedFrameUrl = none ∨ QUICK_EDIT_PROMPTS key = none ∨ s.isEditing then (s, [])
  else
    let s := { s with quickEditLoadingKey := some key }
    performImageEdit s fetchRes ai

/-- The quick-edit buttons (`App.tsx` line 1041) are disabled while any
task runs. -/
def clickQuickEdit (s : AppState) (key : String) (fetchRes : Except String Unit)
    (ai : Except String String) : AppState × List AiCall :=
  if isAnyTaskRunning s then (s, []) else handleQuickEdit s key fetchRes ai

/-- `handleReWriteFromPopup` (`App.tsx` lines 599-629): the size buttons of
the popup carry no `disabled` attribute, so the handler's own
`!capturedFrameUrl || isAnyTaskRunning` guard is the gate; it closes the
popup, runs the parameterised re-write, and `finally` clears
`isReWritingFromPopup`.  The `size` parameter only alters the prompt text. -/
def handleReWriteFromPopup (s : AppState) (size : ℕ) (fetchRes : Except String Unit)
    (ai : Except String String) : AppState × List AiCall :=
  if s.capturedFrameUrl = none ∨ isAnyTaskRunning s then (s, [])
  else
    let _ := size
    let s := { s with
      isReWritePopupOpen := false
      isReWritingFromPopup := true
      error := none }
    match fetchRes with
    | Except.error e =>
        ({ s with
            error := some (messageOr e "An error occurred while re-writing the image.")
            isReWritingFromPopup := false }, [])
    | Except.ok _ =>
        match ai with
        | Except.error e =>
            ({ s with
                error := some (messageOr e "An error occurred while re-writing the image.")
                isReWritingFromPopup := false }, [AiCall.editImage])
        | Except.ok _ =>
            let u := (freshUrl s).1
            let s := (freshUrl s).2
            ({ s with
                editedFrameUrl := some u
                isReWritingFromPopup := false }, [AiCall.editImage])

/-- `handleEditAgain` (`App.tsx` lines 682-694): promote the edited image
to the preview slot.  The `fetch` of the edited frame is *not* wrapped in
`try`/`catch`: a rejection escapes the handler (returned as `Except.error`),
with no state change and no stored message. -/
def handleEditAgain (s : AppState) (fetchRes : Except String Unit) :
    Except String AppState :=
  if s.editedFrameUrl = none then Except.ok s
  else
    match fetchRes with
    | Except.error e => Except.error e
    | Except.ok _ =>
        let u := (freshUrl s).1
        let s := (freshUrl s).2
        Except.ok { s with capturedFrameUrl := some u, editedFrameUrl := none }

/-- `handleInsertTimestamp` as an operation on the session state (the text
transformation proper is `handleInsertTimestamp` above). -/
def insertTimestampOp (s : AppState) (selStart selEnd : ℕ) : AppState :=
  { s with editableText := String.mk (handleInsertTimestamp
      s.editableText.toList selStart selEnd
      (formatDuration (some s.videoCurrentTime)).toList) }

/-- One user-triggerable operation of the UI Shell, carrying the outcomes
of the external calls the corresponding handler awaits. -/
inductive UiAction where
  | fileLoad (file : Option String) (metadata : Except Unit ℚ)
  | imageFileLoad (file : Option String)
  | textFileLoad (file : Option Unit) (readResult : Except Unit String)
  | analyzeClick
  | analyzeComplete (result : Except String (List Transcription))
  | captureFrame (canvasOk blobOk : Bool)
  | captureText (canvasOk : Bool) (ai : Except String String)
  | reWriteFrame (canvasOk blobOk : Bool) (ai : Except String String)
  | editImageClick (fetchRes : Except String Unit) (ai : Except String String)
  | quickEdit (key : String) (fetchRes : Except String Unit) (ai : Except String String)
  | reWriteFromPopup (size : ℕ) (fetchRes : Except String Unit) (ai : Except String String)
  | editAgain (fetchRes : Except String Unit)
  | insertTimestamp (selStart selEnd : ℕ)
  | setPrompt (t : String)
  | setText (t : String)

/-- The step function of the UI Shell: user actions arrive through the
rendered controls (a disabled button cannot fire its handler), plus the
completion event of a pending analysis.  An uncaught handler exception
(`handleEditAgain`) leaves the state unchanged. -/
def step (a : UiAction) (s : AppState) : AppState × List AiCall :=
  match a with
  | UiAction.fileLoad f m => (handleFileChange s f m, [])
  | UiAction.imageFileLoad f =>
      (if isAnyTaskRunning s then s else handleImageFileChange s f, [])
  | UiAction.textFileLoad f r => (handleTextFileChange s f r, [])
  | UiAction.analyzeClick => (clickAnalyze s, [])
  | UiAction.analyzeComplete r => (handleAnalyzeClickFinish s r, [])
  | UiAction.captureFrame c b =>
      (if isAnyTaskRunning s then s else handleCaptureFrame s c b, [])
  | UiAction.captureText c ai => clickCaptureText s c ai
  | UiAction.reWriteFrame c b ai => clickReWriteFrame s c b ai
  | UiAction.editImageClick f ai => clickEditImage s f ai
  | UiAction.quickEdit k f ai => clickQuickEdit s k f ai
  | UiAction.reWriteFromPopup z f ai => handleReWriteFromPopup s z f ai
  | UiAction.editAgain f =>
      (match handleEditAgain s f with
       | Except.ok s' => s'
       | Except.error _ => s, [])
  | UiAction.insertTimestamp a b => (insertTimestampOp s a b, [])
  | UiAction.setPrompt t => ({ s with editPrompt := t }, [])
  | UiAction.setText t => ({ s with editableText := t }, [])

/-- C6: while any busy flag is set, each of the five AI-triggering actions
(capture text, re-write frame, apply edit, quick edit, popup re-write) is a
no-op: the session state is unchanged and no AI call is dispatched.  The
first four are gated by the `disabled={isAnyTaskRunning}` attribute of
their buttons, the popup re-write by its handler's own guard. -/
theorem busyFlag_gating (s : AppState) (h : isAnyTaskRunning s = true) :
    (∀ (c : Bool) (ai : Except String String),
      step (UiAction.captureText c ai) s = (s, [])) ∧
    (∀ (c b : Bool) (ai : Except String String),
      step (UiAction.reWriteFrame c b ai) s = (s, [])) ∧
    (∀ (f : Except String Unit) (ai : Except String String),
      step (UiAction.editImageClick f ai) s = (s, [])) ∧
    (∀ (k : String) (f : Except String Unit) (ai : Except String String),
      step (UiAction.quickEdit k f ai) s = (s, [])) ∧
    (∀ (z : ℕ) (f : Except String Unit) (ai : Except String String),
      step (UiAction.reWriteFromPopup z f ai) s = (s, [])) := by
  refine ⟨?_, ?_, ?_, ?_, ?_⟩
  · intro c ai
    simp [step, clickCaptureText, h]
  · intro c b ai
    simp [step, clickReWriteFrame, h]
  · intro f ai
    simp [step, clickEditImage, h]
  · intro k f ai
    simp [step, clickQuickEdit, h]
  · intro z f ai
    simp [step, handleReWriteFromPopup, h]

/-- A session state with an AI edit in flight (`isEditing` set). -/
def exampleBusyState : AppState where
  videoFile := some "clip.mp4"
  externalImageFile := none
  videoDuration := some 10
  videoUrl := some 0
  capturedFrameUrl := some 1
  editedFrameUrl := none
  videoCurrentTime := 3
  capturedTime := 0
  status := AppStatus.success
  transcriptions := []
  error := none
  progressMessage := ""
  editableText := ""
  isCapturing := false
  isCapturingFrame := false
  isReWriting := false
  isEditing := true
  editPrompt := "x"
  quickEditLoadingKey := none
  isImagePreviewVisible := true
  isReWritePopupOpen := false
  isReWritingFromPopup := false
  urlCounter := 2

/-- Witness for C6: with an edit in flight, a capture-text invocation
changes nothing and dispatches nothing. -/
theorem busyFlag_gating_witness :
    isAnyTaskRunning exampleBusyState = true ∧
    step (UiAction.captureText true (Except.ok "img")) exampleBusyState
      = (exampleBusyState, []) :=
  ⟨rfl, (busyFlag_gating exampleBusyState rfl).1 true (Except.ok "img")⟩

/-- The `AppStatus` transition list as the specification states it:
idle→processing (analyze clicked), processing→success (results returned),
processing→error (call failed), success/error→idle (new file loaded). -/
def specAllowedTransition : AppStatus → AppStatus → Bool
  | AppStatus.idle, AppStatus.processing => true
  | AppStatus.processing, AppStatus.success => true
  | AppStatus.processing, AppStatus.error => true
  | AppStatus.success, AppStatus.idle => true
  | AppStatus.error, AppStatus.idle => true
  | _, _ => false

/-- A quiescent session state showing a successful analysis. -/
def exampleSuccessState : AppState where
  videoFile := some "clip.mp4"
  externalImageFile := none
  videoDuration := some 10
  videoUrl := some 0
  capturedFrameUrl := none
  editedFrameUrl := none
  videoCurrentTime := 3
  capturedTime := 0
  status := AppStatus.success
  transcriptions := [⟨"00:00", "HELLO"⟩]
  error := none
  progressMessage := ""
  editableText := "00:00 HELLO\nclip length 00:10"
  isCapturing := false
  isCapturingFrame := false
  isReWriting := false
  isEditing := false
  editPrompt := ""
  quickEditLoadingKey := none
  isImagePreviewVisible := false
  isReWritePopupOpen := false
  isReWritingFromPopup := false
  urlCounter := 1

/-- Counterexample to C7: the analyze button is enabled whenever the status
is not `processing`, so clicking it in the `success` state performs the
transition success→processing, which is not in the specification's list. -/
theorem appStatus_transitions_counterexample :
    (step UiAction.analyzeClick exampleSuccessState).1.status
        ≠ exampleSuccessState.status ∧
    specAllowedTransition exampleSuccessState.status
      (step UiAction.analyzeClick exampleSuccessState).1.status = false := by
  constructor
  · decide
  · decide

section StatusPreservationLemmas

/-- The frame-capture handler does not touch the status. -/
theorem handleCaptureFrame_status (s : AppState) (c b : Bool) :
    (handleCaptureFrame s c b).status = s.status := by
  simp only [handleCaptureFrame, freshUrl]
  split_ifs <;> rfl

/-- The capture-text handler does not touch the status. -/
theorem clickCaptureText_status (s : AppState) (c : Bool)
    (ai : Except String String) : (clickCaptureText s c ai).1.status = s.status := by
  cases ai <;>
    (simp only [clickCaptureText, handleCaptureText, freshUrl]; split_ifs <;> rfl)

/-- The re-write handler does not touch the status. -/
theorem clickReWriteFrame_status (s : AppState) (c b : Bool)
    (ai : Except String String) :
    (clickReWriteFrame s c b ai).1.status = s.status := by
  cases ai <;>
    (simp only [clickReWriteFrame, handleReWriteFrame, freshUrl]; split_ifs <;> rfl)

/-- `performImageEdit` does not touch the status. -/
theorem performImageEdit_status (s : AppState) (f : Except String Unit)
    (ai : Except String String) : (performImageEdit s f ai).1.status = s.status := by
  cases f <;> cases ai <;> rfl

/-- The apply-edit click does not touch the status. -/
theorem clickEditImage_status (s : AppState) (f : Except String Unit)
    (ai : Except String String) : (clickEditImage s f ai).1.status = s.status := by
  simp only [clickEditImage, handleEditImage]
  split_ifs <;> first
    | rfl
    | (show (performImageEdit s f ai).1.status = s.status
       exact performImageEdit_status s f ai)

/-- The quick-edit click does not touch the status. -/
theorem clickQuickEdit_status (s : AppState) (k : String) (f : Except String Unit)
    (ai : Except String String) : (clickQuickEdit s k f ai).1.status = s.status := by
  simp only [clickQuickEdit, handleQuickEdit]
  split_ifs <;> first
    | rfl
    | exact performImageEdit_status _ f ai

/-- The popup re-write handler does not touch the status. -/
theorem handleReWriteFromPopup_status (s : AppState) (z : ℕ)
    (f : Except String Unit) (ai : Except String String) :
    (handleReWriteFromPopup s z f ai).1.status = s.status := by
  cases f <;> cases ai <;>
    (simp only [handleReWriteFromPopup, freshUrl]; split_ifs <;> rfl)

end StatusPreservationLemmas

/-- C7 (amended): the status is written only by four operations — loading a
file sets `idle`, clicking analyze (enabled whenever the status is not
`processing` and a video is loaded) sets `processing`, a completing
analysis sets `success` or `error`, and a failing text-file read sets
`error`; no other operation changes the `AppStatus`.  The source states
are not restricted to the specification's list: analyze can be re-clicked
from `success`/`error`, a new file can be loaded during `processing`, and a
stale analysis completion fires in whatever state the session is in. -/
theorem appStatus_transitions_amended (s : AppState) (a : UiAction)
    (hch : (step a s).1.status ≠ s.status) :
    ((step a s).1.status = AppStatus.idle ∧ ∃ f m, a = UiAction.fileLoad (some f) m) ∨
    ((step a s).1.status = AppStatus.processing ∧ a = UiAction.analyzeClick
      ∧ s.status ≠ AppStatus.processing ∧ s.videoFile ≠ none) ∨
    ((step a s).1.status = AppStatus.success
      ∧ ∃ r, a = UiAction.analyzeComplete (Except.ok r)) ∨
    ((step a s).1.status = AppStatus.error
      ∧ ((∃ e, a = UiAction.analyzeComplete (Except.error e))
         ∨ ∃ f, a = UiAction.textFileLoad f (Except.error ()))) := by
  cases a with
  | fileLoad f m =>
      cases f with
      | none => exact absurd rfl hch
      | some fn =>
          left
          refine ⟨?_, fn, m, rfl⟩
          cases m <;> rfl
  | imageFileLoad f =>
      exfalso
      apply hch
      simp only [step]
      split_ifs
      · rfl
      · cases f <;> rfl
  | textFileLoad f r =>
      cases f with
      | none => exact absurd rfl hch
      | some u =>
          cases r with
          | ok t => exact absurd rfl hch
          | error e =>
              right; right; right
              exact ⟨rfl, Or.inr ⟨some u, rfl⟩⟩
  | analyzeClick =>
      simp only [step, clickAnalyze] at hch ⊢
      by_cases hp : s.status = AppStatus.processing
      · rw [if_pos hp] at hch
        exact absurd rfl hch
      · rw [if_neg hp] at hch ⊢
        simp only [handleAnalyzeClickStart] at hch ⊢
        by_cases hv : s.videoFile = none
        · rw [if_pos hv] at hch
          exact absurd rfl hch
        · rw [if_neg hv]
          right; left
          rw [if_neg hv] at hch
          exact ⟨rfl, by trivial, hp, hv⟩
  | analyzeComplete r =>
      cases r with
      | ok res => exact Or.inr (Or.inr (Or.inl ⟨rfl, res, rfl⟩))
      | error e => exact Or.inr (Or.inr (Or.inr ⟨rfl, Or.inl ⟨e, rfl⟩⟩))
  | captureFrame c b =>
      exfalso
      apply hch
      simp only [step]
      split_ifs
      · rfl
      · exact handleCaptureFrame_status s c b
  | captureText c ai => exact absurd (clickCaptureText_status s c ai) hch
  | reWriteFrame c b ai => exact absurd (clickReWriteFrame_status s c b ai) hch
  | editImageClick f ai => exact absurd (clickEditImage_status s f ai) hch
  | quickEdit k f ai => exact absurd (clickQuickEdit_status s k f ai) hch
  | reWriteFromPopup z f ai => exact absurd (handleReWriteFromPopup_status s z f ai) hch
  | editAgain f =>
      exfalso
      apply hch
      cases f <;>
        (simp only [step, handleEditAgain, freshUrl]; split_ifs <;> rfl)
  | insertTimestamp a b => exact absurd rfl hch
  | setPrompt t => exact absurd rfl hch
  | setText t => exact absurd rfl hch

/-- Witness for the amended C7: the concrete success→processing transition
on re-clicking analyze is one of the amended transitions. -/
theorem appStatus_transitions_amended_witness :
    (step UiAction.analyzeClick exampleSuccessState).1.status
        ≠ exampleSuccessState.status ∧
    (((step UiAction.analyzeClick exampleSuccessState).1.status = AppStatus.idle
        ∧ ∃ f m, UiAction.analyzeClick = UiAction.fileLoad (some f) m) ∨
     ((step UiAction.analyzeClick exampleSuccessState).1.status = AppStatus.processing
        ∧ UiAction.analyzeClick = UiAction.analyzeClick
        ∧ exampleSuccessState.status ≠ AppStatus.processing
        ∧ exampleSuccessState.videoFile ≠ none) ∨
     ((step UiAction.analyzeClick exampleSuccessState).1.status = AppStatus.success
        ∧ ∃ r, UiAction.analyzeClick = UiAction.analyzeComplete (Except.ok r)) ∨
     ((step UiAction.analyzeClick exampleSuccessState).1.status = AppStatus.error
        ∧ ((∃ e, UiAction.analyzeClick = UiAction.analyzeComplete (Except.error e))
           ∨ ∃ f, UiAction.analyzeClick = UiAction.textFileLoad f (Except.error ())))) :=
  ⟨by decide,
   appStatus_transitions_amended exampleSuccessState UiAction.analyzeClick (by decide)⟩

/-- A quiescent session state holding an edited image. -/
def exampleEditedState : AppState where
  videoFile := some "clip.mp4"
  externalImageFile := none
  videoDuration := some 10
  videoUrl := some 0
  capturedFrameUrl := some 1
  editedFrameUrl := some 2
  videoCurrentTime := 3
  capturedTime := 1
  status := AppStatus.success
  transcriptions := []
  error := none
  progressMessage := ""
  editableText := ""
  isCapturing := false
  isCapturingFrame := false
  isReWriting := false
  isEditing := false
  editPrompt := ""
  quickEditLoadingKey := none
  isImagePreviewVisible := true
  isReWritePopupOpen := false
  isReWritingFromPopup := false
  urlCounter := 3

/-- Counterexample to C9: `handleEditAgain` (the edit-again button) wraps
its `fetch` of the edited frame in no `try`/`catch`, so a fetch rejection
escapes the operation boundary uncaught, and no displayable error message
is stored in the session state. -/
theorem editAgain_uncaught_error :
    handleEditAgain exampleEditedState (Except.error "Failed to fetch")
      = Except.error "Failed to fetch" ∧
    (step (UiAction.editAgain (Except.error "Failed to fetch"))
        exampleEditedState).1.error = none := by
  constructor
  · decide
  · decide

/-- C9 (amended): every operation that sets a busy flag clears it again on
the success path and on every failure path alike (after capture text,
re-write frame, apply edit, quick edit, popup re-write or frame capture no
task is marked running), and a completing analysis always leaves the
`processing` state.  Every error the five AI-invoking operations catch is
stored as a displayable message: the canvas-context failure and the AI
failure of capture text, the canvas-context, blob and AI failures of
re-write frame, and the fetch and AI failures of apply edit, quick edit and
popup re-write; a failed analysis stores its message as well.  Frame
capture is different: its failure paths (no canvas context, no blob) return
early, clearing the flag but storing no message — nothing is thrown there
to catch.  The unhandled exception the counterexample exhibits remains:
`handleEditAgain`'s fetch (like the clipboard copy) has no catch, so its
rejection escapes with no message stored, though no busy flag is
involved. -/
theorem error_recovery_amended (s : AppState) (h : isAnyTaskRunning s = false) :
    (∀ (c : Bool) (ai : Except String String),
      isAnyTaskRunning (step (UiAction.captureText c ai) s).1 = false) ∧
    (∀ (c b : Bool) (ai : Except String String),
      isAnyTaskRunning (step (UiAction.reWriteFrame c b ai) s).1 = false) ∧
    (∀ (f : Except String Unit) (ai : Except String String),
      isAnyTaskRunning (step (UiAction.editImageClick f ai) s).1 = false) ∧
    (∀ (k : String) (f : Except String Unit) (ai : Except String String),
      isAnyTaskRunning (step (UiAction.quickEdit k f ai) s).1 = false) ∧
    (∀ (z : ℕ) (f : Except String Unit) (ai : Except String String),
      isAnyTaskRunning (step (UiAction.reWriteFromPopup z f ai) s).1 = false) ∧
    (∀ (c b : Bool),
      isAnyTaskRunning (step (UiAction.captureFrame c b) s).1 = false) ∧
    (∀ (r : Except String (List Transcription)),
      (step (UiAction.analyzeComplete r) s).1.status ≠ AppStatus.processing) ∧
    (∀ (e : String), s.videoUrl ≠ none → s.videoFile ≠ none →
      (step (UiAction.captureText true (Except.error e)) s).1.error
        = some (messageOr e "An error occurred while capturing the text frame.")) ∧
    (∀ (e : String), s.videoUrl ≠ none → s.videoFile ≠ none →
      (step (UiAction.reWriteFrame true true (Except.error e)) s).1.error
        = some (messageOr e "An error occurred during the re-write process.")) ∧
    (∀ (e : String), s.capturedFrameUrl ≠ none → s.editPrompt.trim ≠ "" →
      (step (UiAction.editImageClick (Except.ok ()) (Except.error e)) s).1.error
        = some (messageOr e "An error occurred while editing the image.")) ∧
    (∀ (e k : String), s.capturedFrameUrl ≠ none → QUICK_EDIT_PROMPTS k ≠ none →
      (step (UiAction.quickEdit k (Except.ok ()) (Except.error e)) s).1.error
        = some (messageOr e "An error occurred while editing the image.")) ∧
    (∀ (e : String) (z : ℕ), s.capturedFrameUrl ≠ none →
      (step (UiAction.reWriteFromPopup z (Except.ok ()) (Except.error e)) s).1.error
        = some (messageOr e "An error occurred while re-writing the image.")) ∧
    (∀ (e : String),
      (step (UiAction.analyzeComplete (Except.error e)) s).1.error
        = some (messageOr e "An unknown error occurred during analysis.")) ∧
    (∀ (c b : Bool), (step (UiAction.captureFrame c b) s).1.error = s.error) ∧
    (∀ (ai : Except String String), s.videoUrl ≠ none → s.videoFile ≠ none →
      (step (UiAction.captureText false ai) s).1.error
        = some "Could not get canvas context") ∧
    (∀ (b : Bool) (ai : Except String String),
      s.videoUrl ≠ none → s.videoFile ≠ none →
      (step (UiAction.reWriteFrame false b ai) s).1.error
        = some "Could not get canvas context") ∧
    (∀ (ai : Except String String), s.videoUrl ≠ none → s.videoFile ≠ none →
      (step (UiAction.reWriteFrame true false ai) s).1.error
        = some "Failed to create blob from canvas.") ∧
    (∀ (e : String) (ai : Except String String),
      s.capturedFrameUrl ≠ none → s.editPrompt.trim ≠ "" →
      (step (UiAction.editImageClick (Except.error e) ai) s).1.error
        = some (messageOr e "An error occurred while editing the image.")) ∧
    (∀ (e k : String) (ai : Except String String),
      s.capturedFrameUrl ≠ none → QUICK_EDIT_PROMPTS k ≠ none →
      (step (UiAction.quickEdit k (Except.error e) ai) s).1.error
        = some (messageOr e "An error occurred while editing the image.")) ∧
    (∀ (e : String) (z : ℕ) (ai : Except String String),
      s.capturedFrameUrl ≠ none →
      (step (UiAction.reWriteFromPopup z (Except.error e) ai) s).1.error
        = some (messageOr e "An error occurred while re-writing the image.")) := by
  have h5 := h
  simp only [isAnyTaskRunning, Bool.or_eq_false_iff] at h5
  obtain ⟨⟨⟨⟨hc, he⟩, hcf⟩, hrw⟩, hrwp⟩ := h5
  refine ⟨?_, ?_, ?_, ?_, ?_, ?_, ?_, ?_, ?_, ?_, ?_, ?_, ?_, ?_, ?_, ?_, ?_, ?_, ?_, ?_⟩
  · intro c ai
    cases ai <;>
      (simp only [step, clickCaptureText, handleCaptureText, freshUrl, h];
       split_ifs <;> simp_all [isAnyTaskRunning])
  · intro c b ai
    cases ai <;>
      (simp only [step, clickReWriteFrame, handleReWriteFrame, freshUrl, h];
       split_ifs <;> simp_all [isAnyTaskRunning])
  · intro f ai
    cases f <;> cases ai <;>
      (simp only [step, clickEditImage, handleEditImage, performImageEdit, freshUrl, h];
       split_ifs <;> simp_all [isAnyTaskRunning])
  · intro k f ai
    cases f <;> cases ai <;>
      (simp only [step, clickQuickEdit, handleQuickEdit, performImageEdit, freshUrl, h];
       split_ifs <;> simp_all [isAnyTaskRunning])
  · intro z f ai
    cases f <;> cases ai <;>
      (simp only [step, handleReWriteFromPopup, freshUrl, h];
       split_ifs <;> simp_all [isAnyTaskRunning])
  · intro c b
    simp only [step, handleCaptureFrame, freshUrl, h]
    split_ifs <;> simp_all [isAnyTaskRunning]
  · intro r
    cases r <;> simp [step, handleAnalyzeClickFinish]
  · intro e hu hv
    simp only [step, clickCaptureText, handleCaptureText, freshUrl, h]
    split_ifs <;> simp_all
  · intro e hu hv
    simp only [step, clickReWriteFrame, handleReWriteFrame, freshUrl, h]
    split_ifs <;> simp_all [isAnyTaskRunning]
  · intro e hcap hpr
    simp only [step, clickEditImage, handleEditImage, performImageEdit, freshUrl, h]
    split_ifs <;> simp_all
  · intro e k hcap hk
    simp only [step, clickQuickEdit, handleQuickEdit, performImageEdit, freshUrl, h]
    split_ifs <;> simp_all
  · intro e z hcap
    simp only [step, handleReWriteFromPopup, freshUrl, h]
    split_ifs <;> simp_all [isAnyTaskRunning]
  · intro e
    simp [step, handleAnalyzeClickFinish]
  · intro c b
    simp only [step, handleCaptureFrame, freshUrl]
    split_ifs <;> rfl
  · intro ai hu hv
    cases ai <;>
      (simp only [step, clickCaptureText, handleCaptureText, freshUrl, h];
       split_ifs <;> simp_all)
  · intro b ai hu hv
    cases ai <;>
      (simp only [step, clickReWriteFrame, handleReWriteFrame, freshUrl, h];
       split_ifs <;> simp_all)
  · intro ai hu hv
    cases ai <;>
      (simp only [step, clickReWriteFrame, handleReWriteFrame, freshUrl, h];
       split_ifs <;> simp_all)
  · intro e ai hcap hpr
    cases ai <;>
      (simp only [step, clickEditImage, handleEditImage, performImageEdit, freshUrl, h];
       split_ifs <;> simp_all)
  · intro e k ai hcap hk
    cases ai <;>
      (simp only [step, clickQuickEdit, handleQuickEdit, performImageEdit, freshUrl, h];
       split_ifs <;> simp_all)
  · intro e z ai hcap
    cases ai <;>
      (simp only [step, handleReWriteFromPopup, freshUrl, h];
       split_ifs <;> simp_all)

/-- Witness for the amended C9 at a concrete quiescent state. -/
theorem error_recovery_amended_witness :
    isAnyTaskRunning exampleEditedState = false ∧
    isAnyTaskRunning
      (step (UiAction.captureText true (Except.ok "img")) exampleEditedState).1
      = false :=
  ⟨rfl, (error_recovery_amended exampleEditedState rfl).1 true (Except.ok "img")⟩
